import Mathlib

/-!
Verification development for the moderation-bot core in `src/main.py`:
the duration parser/formatter, the moderation action ledger, and the
lockdown snapshot/restore machinery.  Each Python function is embedded
as an executable Lean definition; the JSON document store is modelled
as in-memory state (load/save become reads/writes of that state), and
the Discord permission backend (`overwrites_for` / `set_permissions`)
is modelled as a per-channel overwrite map plus a `writeOk` oracle
saying which `set_permissions` calls succeed.
-/

/-! ## Duration parser (`parse_duration`, main.py lines 49-60) -/

/-- True for the four unit letters accepted by the regex `([dhms])`. -/
def isUnitChar (c : Char) : Bool :=
  c == 'd' || c == 'h' || c == 'm' || c == 's'

/-- Seconds per unit, mirroring the `if unit=="d" ... elif` chain
(lines 56-59); non-unit characters contribute 0 (unreachable there). -/
def unitSecs (c : Char) : Nat :=
  if c == 'd' then 86400
  else if c == 'h' then 3600
  else if c == 'm' then 60
  else if c == 's' then 1
  else 0

/-- Numeric value of a decimal digit character. -/
def digitVal (c : Char) : Nat := c.toNat - 48

/-- Left-to-right scan equivalent to
`re.finditer(r"(\d+)([dhms])", text)` summing `value * unit_seconds`:
the state `some v` means a digit run of value `v` has just been read.
A maximal digit run followed by a unit letter is a match; a run
followed by anything else matches at none of its start positions (the
character after the run is the same for every suffix of the run), so
the engine resumes at that character, which the `none`-state step then
skips.  `\d` is modelled as an ASCII digit; every input considered
here is ASCII. -/
def scanTokens : Option Nat → List Char → Nat
  | _, [] => 0
  | none, c :: cs =>
      if c.isDigit then scanTokens (some (digitVal c)) cs
      else scanTokens none cs
  | some v, c :: cs =>
      if c.isDigit then scanTokens (some (v * 10 + digitVal c)) cs
      else if isUnitChar c then v * unitSecs c + scanTokens none cs
      else scanTokens none cs

/-- `parse_duration` (lines 49-60): empty/absent input yields 0
(`if not duration: return 0`); otherwise the lowercased text is
scanned for `<integer><unit>` tokens. -/
def parse_duration (duration : String) : Nat :=
  if duration = ("") then 0
  else scanTokens none (duration.data.map Char.toLower)

/-! ## Duration formatter (`human_readable`, main.py lines 62-72) -/

/-- Decimal digit characters as produced by an f-string `{n}`. -/
def digitChar (n : Nat) : Char :=
  match n with
  | 0 => '0' | 1 => '1' | 2 => '2' | 3 => '3' | 4 => '4'
  | 5 => '5' | 6 => '6' | 7 => '7' | 8 => '8' | _ => '9'

/-- Decimal rendering of a natural number, as `f"{n}"` produces. -/
def natDigits (n : Nat) : List Char :=
  if n < 10 then [digitChar n]
  else natDigits (n / 10) ++ [digitChar (n % 10)]
decreasing_by exact Nat.div_lt_self (by omega) (by omega)

/-- One optional component of `human_readable`: Python appends
`f"{v}{u}"` to `parts` only when `v` is nonzero (`if d: ...`). -/
def partFor (v : Nat) (u : Char) : List Char :=
  if v = 0 then [] else natDigits v ++ [u]

/-- `human_readable` (lines 62-72): the `divmod` chain
`d, r = divmod(seconds, 86400)` etc. is written with `/` and `%`;
`"".join(parts)` is list concatenation, and the empty join falls back
to `"0s"` (`or "0s"`). -/
def human_readable (seconds : Nat) : String :=
  let chars :=
    partFor (seconds / 86400) 'd'
      ++ partFor (seconds % 86400 / 3600) 'h'
      ++ partFor (seconds % 86400 % 3600 / 60) 'm'
      ++ partFor (seconds % 86400 % 3600 % 60) 's'
  if chars.isEmpty then ("0s") else String.mk chars

/-! ## Action ledger (`_next_id`, `add_action`, `edit_action_reason`,
main.py lines 85-119).  The JSON document `mod_actions.json` is a
nested mapping guild -> action_type -> user -> list of records; it is
modelled as a total function from the three keys to the (possibly
empty) record list, with `load_actions`/`save_actions` becoming the
state threading of that function. -/

/-- One moderation action record, the dict appended in `add_action`
(lines 95-101); `edited_at` is absent until the first edit. -/
structure ModRecord where
  id : Nat
  reason : String
  moderatorId : Option Nat
  moderatorName : String
  timestamp : Nat
  editedAt : Option Nat
  deriving DecidableEq, Repr, Inhabited

/-- The `mod_actions.json` document: guild id, action type and user id
select a bucket (missing keys behave as empty buckets, matching
`dict.get(..., {})` / `setdefault`). -/
def Ledger : Type := Nat → String → Nat → List ModRecord

/-- Pointwise bucket update, the effect of mutating the nested dicts
and calling `save_actions`. -/
def updateLedger (L : Ledger) (g : Nat) (t : String) (u : Nat)
    (b : List ModRecord) : Ledger :=
  fun g2 t2 u2 => if g2 = g ∧ t2 = t ∧ u2 = u then b else L g2 t2 u2

/-- `_next_id` (lines 85-87): 1 on an empty list, otherwise the
maximum stored id plus one (`max(int(x.get("id",0)) for x in lst)+1`;
every record written by `add_action` carries an `id`). -/
def next_id (lst : List ModRecord) : Nat :=
  if lst.isEmpty then 1
  else (lst.map ModRecord.id).foldr Nat.max 0 + 1

/-- The sentinel substitution `reason or "No reason provided"`;
Python's falsy strings are exactly the empty string. -/
def orNoReason (reason : String) : String :=
  if reason = ("") then ("No reason provided") else reason

/-- `add_action` (lines 89-103): load, compute the scoped next id,
append a fresh record, save; returns the assigned id.  The Python
`moderator` object contributes `getattr(moderator,"id",None)` and
`str(moderator)`, passed here as `moderatorId`/`moderatorName`. -/
def add_action (L : Ledger) (guild_id : Nat) (action_type : String)
    (user_id : Nat) (reason : String) (moderatorId : Option Nat)
    (moderatorName : String) (now : Nat) : Ledger × Nat :=
  let bucket := L guild_id action_type user_id
  let action_id := next_id bucket
  let r : ModRecord :=
    { id := action_id, reason := orNoReason reason,
      moderatorId := moderatorId, moderatorName := moderatorName,
      timestamp := now, editedAt := none }
  (updateLedger L guild_id action_type user_id (bucket ++ [r]), action_id)

/-- Index selected by `edit_action_reason` (lines 111-114): 0 when
`number` is falsy (0), otherwise the first index whose record id
equals `number`, falling back to 0 when no id matches (the loop never
assigns `idx`).  Records written by `add_action` always carry an id,
so the `item.get("id", i+1)` default is never consulted. -/
def target_idx (number : Nat) (bucket : List ModRecord) : Nat :=
  if number = 0 then 0
  else
    match bucket.findIdx? (fun x => x.id == number) with
    | some i => i
    | none => 0

/-- `edit_action_reason` (lines 105-119): `None` (here `none`) when
the bucket is empty, otherwise rewrite the reason of the record at
`target_idx`, stamp `edited_at`, save, and return the old reason.
`target_idx` is always in range (the bucket is nonempty), so the
`getD` default is never consulted. -/
def edit_action_reason (L : Ledger) (guild_id : Nat)
    (action_type : String) (user_id : Nat) (number : Nat)
    (new_reason : String) (now : Nat) : Ledger × Option String :=
  let bucket := L guild_id action_type user_id
  if bucket.isEmpty then (L, none)
  else
    let idx := target_idx number bucket
    let old := (bucket.getD idx default).reason
    let modified : ModRecord :=
      { bucket.getD idx default with
        reason := orNoReason new_reason, editedAt := some now }
    (updateLedger L guild_id action_type user_id (bucket.set idx modified),
      some old)

/-- Parameters of one `add_action` call (reason, moderator id and
name, wall-clock time of the call). -/
structure AddParams where
  reason : String
  moderatorId : Option Nat
  moderatorName : String
  now : Nat
  deriving Repr

/-- A sequence of `add_action` calls against the same
(guild, action_type, user) bucket; returns the final ledger and the
assigned ids in call order. -/
def runAdds (L : Ledger) (g : Nat) (t : String) (u : Nat) :
    List AddParams → Ledger × List Nat
  | [] => (L, [])
  | p :: ps =>
    let step := add_action L g t u p.reason p.moderatorId p.moderatorName p.now
    let rest := runAdds step.1 g t u ps
    (rest.1, step.2 :: rest.2)

/-! ## Lockdown manager (`apply_lockdown` / `remove_lockdown`,
main.py lines 122-178).  `lockdowns.json` is modelled as a map from
guild id to snapshot list; channel permission overwrites for the
default ("everyone") role are a map from channel id to `Overwrite`. -/

/-- A `discord.PermissionOverwrite` for the everyone role: the two
flags the lockdown touches, explicitly tri-state, plus `other`, an
opaque stand-in for every remaining permission field (so bit-for-bit
preservation of untouched fields is expressible). -/
structure Overwrite where
  sendMessages : Option Bool
  addReactions : Option Bool
  other : Nat
  deriving DecidableEq, Repr, Inhabited

/-- The two mutations `perms.send_messages=False` and
`perms.add_reactions=False` (lines 137-138). -/
def lockOw (o : Overwrite) : Overwrite :=
  { o with sendMessages := some false, addReactions := some false }

/-- The environment configuration `STAFF_CHANNEL_IDS` and
`GENERAL_CHANNEL_ID` (lines 18-19). -/
structure Config where
  staffIds : List Nat
  generalId : Nat
  deriving Repr

/-- A guild: its id and its channels' ids, in iteration order of
`guild.channels`. -/
structure Guild where
  id : Nat
  channels : List Nat
  deriving Repr

/-- The skip test of line 133:
`ch.id in STAFF_CHANNEL_IDS or ch.id == GENERAL_CHANNEL_ID`. -/
def skipChannel (cfg : Config) (c : Nat) : Bool :=
  cfg.staffIds.contains c || c == cfg.generalId

/-- One lockdown snapshot, the dict of line 129; `channels` keeps the
insertion order of the Python dict. -/
structure Snapshot where
  channels : List (Nat × Overwrite)
  timestamp : Nat
  level : String
  reason : String
  unlockAt : Nat
  deriving DecidableEq, Repr

/-- The mutable world: everyone-role overwrites per channel (read by
`overwrites_for`, written by `set_permissions`) and the
`lockdowns.json` document per guild id. -/
structure World where
  overwrites : Nat → Overwrite
  lockdowns : Nat → List Snapshot

/-- Result of `apply_lockdown`: the `affected` id list on success, or
the `"⚠ Failed to apply lockdown"` string when an exception escapes
the per-channel loop (there is no per-channel handler: the whole sweep
sits in one `try`). -/
inductive ApplyResult where
  | ok (affected : List Nat)
  | err
  deriving DecidableEq, Repr

/-- Result of `remove_lockdown`: the no-snapshot message or the
`"Restored ~r; failed ~f"` summary. -/
inductive RestoreResult where
  | noSnapshot
  | summary (restored failed : Nat)
  deriving DecidableEq, Repr

/-- The `for ch in guild.channels` loop of lines 132-140, returning
(final overwrites, snapshot `channels` entries, `affected`, flag).
The flag is false when a `set_permissions` call raised: the exception
aborts the loop (and the enclosing function) at that channel.  Note
the aliasing in the source: `snapshot["channels"][str(ch.id)] = perms`
stores a reference to the very object mutated by the following
`perms.send_messages=False` / `perms.add_reactions=False`, so the
recorded entry is the locked overwrite, not the pre-mutation one. -/
def applyLoop (cfg : Config) (writeOk : Nat → Bool) :
    (Nat → Overwrite) → List Nat →
    (Nat → Overwrite) × List (Nat × Overwrite) × List Nat × Bool
  | ow, [] => (ow, [], [], true)
  | ow, ch :: rest =>
    if skipChannel cfg ch then applyLoop cfg writeOk ow rest
    else
      let locked := lockOw (ow ch)
      if writeOk ch then
        let r := applyLoop cfg writeOk
          (fun c => if c = ch then locked else ow c) rest
        (r.1, (ch, locked) :: r.2.1, ch :: r.2.2.1, r.2.2.2)
      else (ow, [(ch, locked)], [], false)

/-- `apply_lockdown` (lines 127-161).  On a clean sweep the snapshot
is appended to the guild's list (`setdefault(...,[]).append`) and
saved; on an exception nothing is appended and the error string is
returned, while writes already performed remain.  `unlock_at` follows
lines 129/141-142 (`if duration:` is false for `None` and for 0); the
spawned `auto_unlock` task and the notification embeds are external
effects outside this model. -/
def apply_lockdown (cfg : Config) (w : World) (g : Guild)
    (level reason : String) (duration : Option Nat) (now : Nat)
    (writeOk : Nat → Bool) : World × ApplyResult :=
  let r := applyLoop cfg writeOk w.overwrites g.channels
  if r.2.2.2 then
    let snap : Snapshot :=
      { channels := r.2.1, timestamp := now, level := level,
        reason := reason,
        unlockAt :=
          match duration with
          | some d => if d = 0 then 0 else now + d
          | none => 0 }
    ({ overwrites := r.1,
       lockdowns := fun gid =>
         if gid = g.id then w.lockdowns g.id ++ [snap]
         else w.lockdowns gid },
      ApplyResult.ok r.2.2.1)
  else ({ w with overwrites := r.1 }, ApplyResult.err)

/-- The inner loop of `remove_lockdown` (lines 168-175) over one
snapshot's captured channels: `guild.get_channel` misses are skipped
silently; each `set_permissions` is wrapped in its own `try`, failures
only incrementing `failed`. -/
def restoreChans (g : Guild) (writeOk : Nat → Bool) :
    (Nat → Overwrite) → List (Nat × Overwrite) →
    (Nat → Overwrite) × Nat × Nat
  | ow, [] => (ow, 0, 0)
  | ow, (cid, perms) :: rest =>
    if g.channels.contains cid then
      if writeOk cid then
        let r := restoreChans g writeOk
          (fun c => if c = cid then perms else ow c) rest
        (r.1, r.2.1 + 1, r.2.2)
      else
        let r := restoreChans g writeOk ow rest
        (r.1, r.2.1, r.2.2 + 1)
    else restoreChans g writeOk ow rest

/-- The outer loop of `remove_lockdown` over all accumulated
snapshots, in stored order. -/
def restoreLoop (g : Guild) (writeOk : Nat → Bool) :
    (Nat → Overwrite) → List Snapshot → (Nat → Overwrite) × Nat × Nat
  | ow, [] => (ow, 0, 0)
  | ow, snap :: rest =>
    let r1 := restoreChans g writeOk ow snap.channels
    let r2 := restoreLoop g writeOk r1.1 rest
    (r2.1, r1.2.1 + r2.2.1, r1.2.2 + r2.2.2)

/-- `remove_lockdown` (lines 163-178): no snapshots means the
informational no-snapshot return with nothing written; otherwise every
snapshot is processed and the guild's list is cleared unconditionally
(`snapshots[str(guild.id)]=[]`) before saving. -/
def remove_lockdown (w : World) (g : Guild) (writeOk : Nat → Bool) :
    World × RestoreResult :=
  let snaps := w.lockdowns g.id
  if snaps.isEmpty then (w, RestoreResult.noSnapshot)
  else
    let r := restoreLoop g writeOk w.overwrites snaps
    ({ overwrites := r.1,
       lockdowns := fun gid => if gid = g.id then [] else w.lockdowns gid },
      RestoreResult.summary r.2.1 r.2.2)

/-! ## Lemmas about the duration parser and formatter -/

lemma digitChar_isDigit (n : Nat) (h : n < 10) :
    (digitChar n).isDigit = true := by
  interval_cases n <;> decide

lemma digitVal_digitChar (n : Nat) (h : n < 10) :
    digitVal (digitChar n) = n := by
  interval_cases n <;> decide

lemma digitChar_toLower (n : Nat) (h : n < 10) :
    (digitChar n).toLower = digitChar n := by
  interval_cases n <;> decide

lemma natDigits_ne_nil (n : Nat) : natDigits n ≠ [] := by
  unfold natDigits
  split <;> simp

lemma natDigits_mem (n : Nat) :
    ∀ c ∈ natDigits n, ∃ k, k < 10 ∧ c = digitChar k := by
  induction n using Nat.strong_induction_on with
  | _ n ih =>
    intro c hc
    unfold natDigits at hc
    split at hc
    · next h =>
      simp only [List.mem_singleton] at hc
      exact ⟨n, h, hc⟩
    · next h =>
      rcases List.mem_append.mp hc with h1 | h1
      · exact ih (n / 10) (Nat.div_lt_self (by omega) (by omega)) c h1
      · simp only [List.mem_singleton] at h1
        exact ⟨n % 10, Nat.mod_lt _ (by omega), h1⟩

lemma natDigits_isDigit (n : Nat) :
    ∀ c ∈ natDigits n, c.isDigit = true := by
  intro c hc
  obtain ⟨k, hk, rfl⟩ := natDigits_mem n c hc
  exact digitChar_isDigit k hk

lemma natDigits_toLower (n : Nat) :
    ∀ c ∈ natDigits n, c.toLower = c := by
  intro c hc
  obtain ⟨k, hk, rfl⟩ := natDigits_mem n c hc
  exact digitChar_toLower k hk

lemma foldl_natDigits (k : Nat) :
    ∀ a, (natDigits k).foldl (fun a c => a * 10 + digitVal c) a
      = a * 10 ^ (natDigits k).length + k := by
  induction k using Nat.strong_induction_on with
  | _ k ih =>
    intro a
    unfold natDigits
    split
    · next h =>
      simp [digitVal_digitChar k h]
    · next h =>
      rw [List.foldl_append, List.length_append,
        ih (k / 10) (Nat.div_lt_self (by omega) (by omega)) a]
      simp only [List.foldl_cons, List.foldl_nil, List.length_cons,
        List.length_nil]
      rw [digitVal_digitChar (k % 10) (Nat.mod_lt _ (by omega))]
      rw [pow_succ]
      have := Nat.div_add_mod k 10
      ring_nf
      omega

lemma unit_not_digit (c : Char) (h : isUnitChar c = true) :
    c.isDigit = false := by
  simp only [isUnitChar, Bool.or_eq_true, beq_iff_eq] at h
  rcases h with ((rfl | rfl) | rfl) | rfl <;> decide

lemma scan_run (ds : List Char) (hds : ∀ c ∈ ds, c.isDigit = true)
    (a : Nat) (u : Char) (hu : isUnitChar u = true) (rest : List Char) :
    scanTokens (some a) (ds ++ u :: rest)
      = ds.foldl (fun a c => a * 10 + digitVal c) a * unitSecs u
        + scanTokens none rest := by
  induction ds generalizing a with
  | nil => simp [scanTokens, unit_not_digit u hu, hu]
  | cons d ds' ih =>
    have hd : d.isDigit = true := hds d (by simp)
    simp only [List.cons_append, scanTokens, hd, if_true]
    exact ih (fun c hc => hds c (by simp [hc])) _

lemma scan_token (k : Nat) (u : Char) (hu : isUnitChar u = true)
    (rest : List Char) :
    scanTokens none (natDigits k ++ u :: rest)
      = k * unitSecs u + scanTokens none rest := by
  obtain ⟨d, ds, hds⟩ : ∃ d ds, natDigits k = d :: ds := by
    cases h : natDigits k with
    | nil => exact absurd h (natDigits_ne_nil k)
    | cons d ds => exact ⟨d, ds, rfl⟩
  have hdig : ∀ c ∈ d :: ds, c.isDigit = true := by
    rw [← hds]; exact natDigits_isDigit k
  rw [hds, List.cons_append]
  show scanTokens none (d :: (ds ++ u :: rest)) = _
  simp only [scanTokens, hdig d (by simp), if_true]
  rw [scan_run ds (fun c hc => hdig c (by simp [hc])) _ u hu rest]
  have : (d :: ds).foldl (fun a c => a * 10 + digitVal c) 0 = k := by
    rw [← hds, foldl_natDigits]; simp
  simp only [List.foldl_cons] at this
  simp only [Nat.zero_mul, Nat.zero_add] at this
  rw [this]

lemma scan_part (v : Nat) (u : Char) (hu : isUnitChar u = true)
    (rest : List Char) :
    scanTokens none (partFor v u ++ rest)
      = v * unitSecs u + scanTokens none rest := by
  unfold partFor
  split
  · next h => simp [h]
  · next h =>
      rw [List.append_assoc]
      exact scan_token v u hu rest

lemma partFor_eq_nil (v : Nat) (u : Char) : partFor v u = [] ↔ v = 0 := by
  unfold partFor
  split
  · next h => simp [h]
  · next h => simp [h, natDigits_ne_nil]

lemma partFor_toLower (v : Nat) (u : Char) (hu : u.toLower = u) :
    (partFor v u).map Char.toLower = partFor v u := by
  unfold partFor
  split
  · simp
  · rw [List.map_append]
    congr 1
    · exact List.map_congr_left (natDigits_toLower v) |>.trans (List.map_id _)
    · simp [hu]

/-- C6: for every non-negative integer `n`,
`parse_duration (human_readable n) = n`: formatting `n` seconds with
the largest applicable units (omitting zero components, with `"0s"`
for zero) and parsing the result yields `n` again. -/
theorem parse_human_readable_roundtrip (n : Nat) :
    parse_duration (human_readable n) = n := by
  by_cases hz :
      partFor (n / 86400) 'd' ++ partFor (n % 86400 / 3600) 'h'
        ++ partFor (n % 86400 % 3600 / 60) 'm'
        ++ partFor (n % 86400 % 3600 % 60) 's' = []
  · have h4 := hz
    simp only [List.append_eq_nil, partFor_eq_nil] at h4
    have hn : n = 0 := by omega
    subst hn
    decide
  · have hne : human_readable n
        = String.mk
            (partFor (n / 86400) 'd' ++ partFor (n % 86400 / 3600) 'h'
              ++ partFor (n % 86400 % 3600 / 60) 'm'
              ++ partFor (n % 86400 % 3600 % 60) 's') := by
      unfold human_readable
      simp only [List.isEmpty_iff, hz, if_false]
    rw [hne]
    have hmkne : String.mk
        (partFor (n / 86400) 'd' ++ partFor (n % 86400 / 3600) 'h'
          ++ partFor (n % 86400 % 3600 / 60) 'm'
          ++ partFor (n % 86400 % 3600 % 60) 's') ≠ ("") := by
      intro hcon
      exact hz (congrArg String.data hcon)
    unfold parse_duration
    rw [if_neg hmkne]
    show scanTokens none
        ((partFor (n / 86400) 'd' ++ partFor (n % 86400 / 3600) 'h'
          ++ partFor (n % 86400 % 3600 / 60) 'm'
          ++ partFor (n % 86400 % 3600 % 60) 's').map Char.toLower) = n
    rw [List.map_append, List.map_append, List.map_append]
    rw [partFor_toLower _ 'd' (by decide), partFor_toLower _ 'h' (by decide),
      partFor_toLower _ 'm' (by decide), partFor_toLower _ 's' (by decide)]
    rw [List.append_assoc, List.append_assoc]
    rw [scan_part _ 'd' (by decide), scan_part _ 'h' (by decide),
      scan_part _ 'm' (by decide)]
    rw [show partFor (n % 86400 % 3600 % 60) 's'
        = partFor (n % 86400 % 3600 % 60) 's' ++ [] from
      (List.append_nil _).symm]
    rw [scan_part _ 's' (by decide)]
    show n / 86400 * unitSecs 'd'
        + (n % 86400 / 3600 * unitSecs 'h'
          + (n % 86400 % 3600 / 60 * unitSecs 'm'
            + (n % 86400 % 3600 % 60 * unitSecs 's' + scanTokens none []))) = n
    rw [show unitSecs 'd' = 86400 from rfl, show unitSecs 'h' = 3600 from rfl,
      show unitSecs 'm' = 60 from rfl, show unitSecs 's' = 1 from rfl,
      show scanTokens none [] = 0 from rfl]
    omega

/-- C7: `parse_duration` is total on all strings (it is a total Lean
function) and sums `value * unit_seconds` over every
`<integer><unit>` token with unit in d/h/m/s case-insensitively,
skipping non-matching characters; in particular the empty string, a
string with no token, `"2d"`, and its uppercase variant evaluate as
the spec says.  The two quantified conjuncts state the scanner's
behaviour on a token (a digit run followed by a unit letter) and on a
non-matching character. -/
theorem parse_duration_spec :
    parse_duration ("") = 0
    ∧ parse_duration ("not a duration") = 0
    ∧ parse_duration ("2d") = 172800
    ∧ parse_duration ("2D") = 172800
    ∧ (∀ (u : Char), isUnitChar u = true → ∀ (k : Nat) (rest : List Char),
        scanTokens none (natDigits k ++ u :: rest)
          = k * unitSecs u + scanTokens none rest)
    ∧ (∀ (c : Char) (cs : List Char), c.isDigit = false →
        scanTokens none (c :: cs) = scanTokens none cs) := by
  refine ⟨by decide, by decide, by decide, by decide, ?_, ?_⟩
  · intro u hu k rest
    exact scan_token k u hu rest
  · intro c cs hc
    simp [scanTokens, hc]

/-- Witness for C7: the token conjunct applied at the concrete token
`3h` with empty remainder. -/
theorem parse_duration_spec_witness :
    scanTokens none (natDigits 3 ++ 'h' :: []) = 3 * unitSecs 'h'
      + scanTokens none [] :=
  parse_duration_spec.2.2.2.2.1 'h' (by decide) 3 []

/-! ## Lemmas about the action ledger -/

lemma updateLedger_same (L : Ledger) (g : Nat) (t : String) (u : Nat)
    (b : List ModRecord) : updateLedger L g t u b g t u = b := by
  simp [updateLedger]

lemma foldr_max_range' (n : Nat) :
    ∀ s, (List.range' s n).foldr Nat.max 0
      = if n = 0 then 0 else s + n - 1 := by
  induction n with
  | zero => simp
  | succ m ih =>
    intro s
    rw [List.range'_succ]
    simp only [List.foldr_cons, ih (s + 1)]
    rw [if_neg (Nat.succ_ne_zero m)]
    by_cases hm : m = 0
    · subst hm
      simp
    · rw [if_neg hm]
      have e1 : s + 1 + m - 1 = s + m := by omega
      rw [e1]
      show (if s ≤ s + m then s + m else s) = s + (m + 1) - 1
      rw [if_pos (Nat.le_add_right s m)]
      omega

lemma next_id_of_ids_range (b : List ModRecord) (k : Nat)
    (h : b.map ModRecord.id = List.range' 1 k) : next_id b = k + 1 := by
  unfold next_id
  rcases Nat.eq_zero_or_pos k with hk | hk
  · subst hk
    simp only [List.range'_zero, List.map_eq_nil_iff] at h
    simp [h]
  · have hb : b ≠ [] := by
      intro hcon
      subst hcon
      simp only [List.map_nil] at h
      have := congrArg List.length h
      simp at this
      omega
    rw [if_neg (by simpa [List.isEmpty_iff] using hb), h, foldr_max_range']
    rw [if_neg (by omega)]
    omega

lemma add_action_bucket (L : Ledger) (g : Nat) (t : String) (u : Nat)
    (reason : String) (mid : Option Nat) (mname : String) (now : Nat) :
    (add_action L g t u reason mid mname now).1 g t u
        = L g t u
          ++ [{ id := next_id (L g t u), reason := orNoReason reason,
                moderatorId := mid, moderatorName := mname,
                timestamp := now, editedAt := none }]
      ∧ (add_action L g t u reason mid mname now).2 = next_id (L g t u) := by
  unfold add_action
  exact ⟨updateLedger_same L g t u _, rfl⟩

lemma runAdds_invariant (g : Nat) (t : String) (u : Nat)
    (ps : List AddParams) :
    ∀ (L : Ledger) (k : Nat),
      (L g t u).map ModRecord.id = List.range' 1 k →
      (runAdds L g t u ps).2 = List.range' (k + 1) ps.length
      ∧ ((runAdds L g t u ps).1 g t u).map ModRecord.id
          = List.range' 1 (k + ps.length) := by
  induction ps with
  | nil =>
    intro L k h
    simp [runAdds, h]
  | cons p ps ih =>
    intro L k h
    have hnext := next_id_of_ids_range _ k h
    obtain ⟨hb, hid⟩ :=
      add_action_bucket L g t u p.reason p.moderatorId p.moderatorName p.now
    have hids :
        ((add_action L g t u p.reason p.moderatorId p.moderatorName
            p.now).1 g t u).map ModRecord.id = List.range' 1 (k + 1) := by
      rw [hb, List.map_append, h, hnext, List.range'_1_concat]
      simp [Nat.add_comm 1 k]
    obtain ⟨h1, h2⟩ := ih _ (k + 1) hids
    refine ⟨?_, ?_⟩
    · show (add_action L g t u p.reason p.moderatorId p.moderatorName
          p.now).2 :: (runAdds _ g t u ps).2 = _
      rw [h1, hid, hnext, List.length_cons, List.range'_succ]
    · show ((runAdds _ g t u ps).1 g t u).map ModRecord.id = _
      rw [h2, List.length_cons]
      congr 1
      omega

/-- C3: starting from an empty (guild, action_type, user) bucket,
every sequence of `add_action` calls assigns the ids 1, 2, ..., n in
order — each id is `max(existing)+1` (1 when empty), equals the count
of prior records plus one, and the ids are strictly increasing; the
final bucket carries exactly those ids, and (last conjunct, for any
ledger state) a call appends its record, never overwriting prior
entries. -/
theorem add_action_scoped_ids (L : Ledger) (g : Nat) (t : String)
    (u : Nat) (ps : List AddParams) (h : L g t u = []) :
    (runAdds L g t u ps).2 = List.range' 1 ps.length
    ∧ ((runAdds L g t u ps).1 g t u).map ModRecord.id
        = List.range' 1 ps.length
    ∧ List.Pairwise (· < ·) (runAdds L g t u ps).2
    ∧ ∀ (L2 : Ledger) (p : AddParams),
        (add_action L2 g t u p.reason p.moderatorId p.moderatorName
            p.now).1 g t u
          = L2 g t u
            ++ [{ id := next_id (L2 g t u), reason := orNoReason p.reason,
                  moderatorId := p.moderatorId,
                  moderatorName := p.moderatorName,
                  timestamp := p.now, editedAt := none }] := by
  obtain ⟨h1, h2⟩ := runAdds_invariant g t u ps L 0 (by simp [h])
  have h1' : (runAdds L g t u ps).2 = List.range' 1 ps.length := by
    simpa using h1
  refine ⟨h1', by simpa using h2, ?_, ?_⟩
  · rw [h1']
    exact List.pairwise_lt_range' 1 ps.length
  · intro L2 p
    exact (add_action_bucket L2 g t u p.reason p.moderatorId
      p.moderatorName p.now).1

/-- Witness for C3: three concrete `add_action` calls on an initially
empty ledger assign ids 1, 2, 3. -/
theorem add_action_scoped_ids_witness :
    (runAdds (fun _ _ _ => []) 1 ("warn") 2
        [⟨"spam", some 9, "mod", 100⟩, ⟨"", none, "mod2", 101⟩,
          ⟨"abuse", some 9, "mod", 102⟩]).2
      = List.range' 1 3 :=
  (add_action_scoped_ids (fun _ _ _ => []) 1 ("warn") 2
    [⟨"spam", some 9, "mod", 100⟩, ⟨"", none, "mod2", 101⟩,
      ⟨"abuse", some 9, "mod", 102⟩] rfl).1

/-- C4: on a non-empty bucket, `edit_action_reason` called with no
explicit target id (Python passes a falsy `number`, i.e. 0) amends the
bucket's first-inserted record (index 0): the reason is replaced, the
id (and the other fields) are unchanged, `edited_at` is set, and the
previous reason is returned. -/
theorem edit_no_target_amends_first (L : Ledger) (g : Nat) (t : String)
    (u : Nat) (r : ModRecord) (rest : List ModRecord)
    (new_reason : String) (now : Nat) (h : L g t u = r :: rest) :
    edit_action_reason L g t u 0 new_reason now
      = (updateLedger L g t u
          ({ r with
             reason := orNoReason new_reason,
             editedAt := some now } :: rest),
        some r.reason) := by
  unfold edit_action_reason
  rw [h]
  simp [target_idx]

/-- Witness for C4: a concrete two-record bucket; the first record's
reason is replaced and returned. -/
theorem edit_no_target_amends_first_witness :
    edit_action_reason
        (updateLedger (fun _ _ _ => []) 1 ("kick") 2
          [⟨1, "old", some 9, "mod", 100, none⟩,
            ⟨2, "keep", none, "mod2", 101, none⟩])
        1 ("kick") 2 0 ("new") 500
      = (updateLedger
          (updateLedger (fun _ _ _ => []) 1 ("kick") 2
            [⟨1, "old", some 9, "mod", 100, none⟩,
              ⟨2, "keep", none, "mod2", 101, none⟩])
          1 ("kick") 2
          [⟨1, "new", some 9, "mod", 100, some 500⟩,
            ⟨2, "keep", none, "mod2", 101, none⟩],
        some ("old")) := by
  have h := edit_no_target_amends_first
    (updateLedger (fun _ _ _ => []) 1 ("kick") 2
      [⟨1, "old", some 9, "mod", 100, none⟩,
        ⟨2, "keep", none, "mod2", 101, none⟩])
    1 ("kick") 2 ⟨1, "old", some 9, "mod", 100, none⟩
    [⟨2, "keep", none, "mod2", 101, none⟩] ("new") 500 (by decide)
  exact h

/-- C5: `edit_action_reason` reports not-found (returns `none`) iff
the (guild, action_type, user) bucket is empty; on every non-empty
bucket it returns `some` of the previous reason of the record it
amends (the one at `target_idx`). -/
theorem edit_not_found_iff_empty (L : Ledger) (g : Nat) (t : String)
    (u : Nat) (number : Nat) (new_reason : String) (now : Nat) :
    ((edit_action_reason L g t u number new_reason now).2 = none
        ↔ L g t u = [])
    ∧ (L g t u ≠ [] →
        (edit_action_reason L g t u number new_reason now).2
          = some (((L g t u).getD (target_idx number (L g t u))
              default).reason)) := by
  unfold edit_action_reason
  by_cases hb : L g t u = []
  · simp [hb]
  · simp [hb, List.isEmpty_iff]

/-- Witness for C5: on a concrete singleton bucket the second conjunct
applies and returns the stored reason. -/
theorem edit_not_found_iff_empty_witness :
    (edit_action_reason
        (updateLedger (fun _ _ _ => []) 3 ("mute") 4
          [⟨1, "first", none, "mod", 50, none⟩])
        3 ("mute") 4 0 ("x") 60).2
      = some (((updateLedger (fun _ _ _ => []) 3 ("mute") 4
            [⟨1, "first", none, "mod", 50, none⟩]) 3 ("mute") 4).getD
          (target_idx 0
            ((updateLedger (fun _ _ _ => []) 3 ("mute") 4
              [⟨1, "first", none, "mod", 50, none⟩]) 3 ("mute") 4))
          default).reason :=
  (edit_not_found_iff_empty
    (updateLedger (fun _ _ _ => []) 3 ("mute") 4
      [⟨1, "first", none, "mod", 50, none⟩])
    3 ("mute") 4 0 ("x") 60).2 (by decide)

/-- C10: when `edit_action_reason` is given a nonzero target id that
matches no record in a non-empty bucket, it does not report not-found:
the `for ... break` loop leaves `idx` at 0, so the first-inserted
record is amended and its previous reason returned. -/
theorem edit_unmatched_id_amends_first (L : Ledger) (g : Nat)
    (t : String) (u : Nat) (r : ModRecord) (rest : List ModRecord)
    (number : Nat) (new_reason : String) (now : Nat)
    (h : L g t u = r :: rest) (hnz : number ≠ 0)
    (hmiss : ∀ x ∈ r :: rest, x.id ≠ number) :
    edit_action_reason L g t u number new_reason now
      = (updateLedger L g t u
          ({ r with
             reason := orNoReason new_reason,
             editedAt := some now } :: rest),
        some r.reason) := by
  have hfind : (r :: rest).findIdx? (fun x => x.id == number) = none := by
    rw [List.findIdx?_eq_none_iff]
    intro x hx
    simp [hmiss x hx]
  have hidx : target_idx number (r :: rest) = 0 := by
    unfold target_idx
    rw [if_neg hnz, hfind]
  unfold edit_action_reason
  rw [h]
  simp [hidx]

/-- Witness for C10: a bucket holding ids 1 and 2, asked to amend id
7: the first record is amended and its reason returned. -/
theorem edit_unmatched_id_amends_first_witness :
    edit_action_reason
        (updateLedger (fun _ _ _ => []) 1 ("ban") 2
          [⟨1, "a", none, "m", 10, none⟩, ⟨2, "b", none, "m", 11, none⟩])
        1 ("ban") 2 7 ("c") 99
      = (updateLedger
          (updateLedger (fun _ _ _ => []) 1 ("ban") 2
            [⟨1, "a", none, "m", 10, none⟩,
              ⟨2, "b", none, "m", 11, none⟩])
          1 ("ban") 2
          [⟨1, "c", none, "m", 10, some 99⟩,
            ⟨2, "b", none, "m", 11, none⟩],
        some ("a")) :=
  edit_unmatched_id_amends_first
    (updateLedger (fun _ _ _ => []) 1 ("ban") 2
      [⟨1, "a", none, "m", 10, none⟩, ⟨2, "b", none, "m", 11, none⟩])
    1 ("ban") 2 ⟨1, "a", none, "m", 10, none⟩
    [⟨2, "b", none, "m", 11, none⟩] 7 ("c") 99 (by decide) (by decide)
    (by decide)

/-! ## Lemmas about the lockdown manager -/

lemma lockOw_idem (o : Overwrite) : lockOw (lockOw o) = lockOw o := rfl

lemma apply_lockdown_overwrites (cfg : Config) (w : World) (g : Guild)
    (level reason : String) (duration : Option Nat) (now : Nat)
    (writeOk : Nat → Bool) :
    (apply_lockdown cfg w g level reason duration now writeOk).1.overwrites
      = (applyLoop cfg writeOk w.overwrites g.channels).1 := by
  by_cases hf : (applyLoop cfg writeOk w.overwrites g.channels).2.2.2 = true
  · simp [apply_lockdown, hf]
  · simp [apply_lockdown, hf]

lemma applyLoop_flag_false (cfg : Config) (writeOk : Nat → Bool) :
    ∀ (chs : List Nat) (ow : Nat → Overwrite),
      (∃ c ∈ chs, skipChannel cfg c = false ∧ writeOk c = false) →
      (applyLoop cfg writeOk ow chs).2.2.2 = false := by
  intro chs
  induction chs with
  | nil =>
    intro ow h
    simp at h
  | cons a rest ih =>
    intro ow h
    by_cases hskip : skipChannel cfg a
    · simp only [applyLoop, hskip, if_true]
      apply ih
      rcases h with ⟨c, hc, h1, h2⟩
      rcases List.mem_cons.mp hc with rfl | hc2
      · rw [hskip] at h1
        exact absurd h1 (by simp)
      · exact ⟨c, hc2, h1, h2⟩
    · by_cases hok : writeOk a
      · simp only [applyLoop, if_neg hskip, hok, if_true]
        apply ih
        rcases h with ⟨c, hc, h1, h2⟩
        rcases List.mem_cons.mp hc with rfl | hc2
        · rw [hok] at h2
          exact absurd h2 (by simp)
        · exact ⟨c, hc2, h1, h2⟩
      · simp only [applyLoop, if_neg hskip, if_neg hok]

lemma applyLoop_untouched (cfg : Config) (writeOk : Nat → Bool) :
    ∀ (chs : List Nat) (ow : Nat → Overwrite) (c : Nat),
      skipChannel cfg c = true →
      (applyLoop cfg writeOk ow chs).1 c = ow c := by
  intro chs
  induction chs with
  | nil =>
    intro ow c _
    rfl
  | cons a rest ih =>
    intro ow c hc
    by_cases hskip : skipChannel cfg a
    · simp only [applyLoop, hskip, if_true]
      exact ih ow c hc
    · have hca : c ≠ a := by
        intro hcon
        rw [hcon] at hc
        exact hskip hc
      by_cases hok : writeOk a
      · simp only [applyLoop, if_neg hskip, hok, if_true]
        rw [ih _ c hc]
        simp [hca]
      · simp only [applyLoop, if_neg hskip, if_neg hok]

lemma applyLoop_entries (cfg : Config) (writeOk : Nat → Bool) :
    ∀ (chs : List Nat) (ow : Nat → Overwrite),
      (∀ c ∈ chs, skipChannel cfg c = false → writeOk c = true) →
      (applyLoop cfg writeOk ow chs).2.2.2 = true
      ∧ (applyLoop cfg writeOk ow chs).2.1.map Prod.fst
          = chs.filter (fun c => !skipChannel cfg c) := by
  intro chs
  induction chs with
  | nil =>
    intro ow _
    exact ⟨rfl, rfl⟩
  | cons a rest ih =>
    intro ow h
    have hrest : ∀ c ∈ rest, skipChannel cfg c = false → writeOk c = true :=
      fun c hc => h c (List.mem_cons_of_mem a hc)
    by_cases hskip : skipChannel cfg a
    · simp only [applyLoop, hskip, if_true]
      obtain ⟨h1, h2⟩ := ih ow hrest
      exact ⟨h1, by simp [List.filter_cons, hskip, h2]⟩
    · have hok : writeOk a = true :=
        h a (List.mem_cons_self a rest) (by simp [hskip])
      simp only [applyLoop, if_neg hskip, hok, if_true]
      obtain ⟨h1, h2⟩ := ih _ hrest
      refine ⟨h1, ?_⟩
      simp only [List.map_cons, h2, List.filter_cons]
      simp [hskip]

lemma applyLoop_locks (cfg : Config) (writeOk : Nat → Bool) :
    ∀ (chs : List Nat) (ow : Nat → Overwrite),
      (∀ c ∈ chs, skipChannel cfg c = false → writeOk c = true) →
      ∀ c, skipChannel cfg c = false →
        (applyLoop cfg writeOk ow chs).1 c
          = if c ∈ chs then lockOw (ow c) else ow c := by
  intro chs
  induction chs with
  | nil =>
    intro ow _ c _
    simp [applyLoop]
  | cons a rest ih =>
    intro ow h c hc
    have hrest : ∀ x ∈ rest, skipChannel cfg x = false → writeOk x = true :=
      fun x hx => h x (List.mem_cons_of_mem a hx)
    by_cases hskip : skipChannel cfg a
    · have hca : c ≠ a := by
        intro hcon
        rw [hcon, hskip] at hc
        exact absurd hc (by simp)
      simp only [applyLoop, hskip, if_true]
      rw [ih ow hrest c hc]
      simp [List.mem_cons, hca]
    · have hok : writeOk a = true :=
        h a (List.mem_cons_self a rest) (by simp [hskip])
      simp only [applyLoop, if_neg hskip, hok, if_true]
      rw [ih _ hrest c hc]
      by_cases hca : c = a
      · subst hca
        by_cases hmem : c ∈ rest
        · simp [hmem, lockOw_idem]
        · simp [hmem]
      · simp only [if_neg hca]
        simp [List.mem_cons, hca]

/-! ## Concrete lockdown scenarios -/

/-- Example configuration: channel 5 is a staff channel, channel 99 is
the general channel. -/
def cfgEx : Config := { staffIds := [5], generalId := 99 }

/-- An everyone-role overwrite with send-messages explicitly allowed
and some other permission data. -/
def baseOw : Overwrite :=
  { sendMessages := some true, addReactions := none, other := 42 }

/-- A world where every channel carries `baseOw` and no guild has a
stored lockdown snapshot. -/
def wEx : World :=
  { overwrites := fun _ => baseOw, lockdowns := fun _ => [] }

/-- A guild with a single in-scope channel 1. -/
def gEx : Guild := { id := 7, channels := [1] }

/-- A guild with two in-scope channels 1 and 2. -/
def gEx2 : Guild := { id := 7, channels := [1, 2] }

/-- C1 fails on the code: because
`snapshot["channels"][str(ch.id)] = perms` aliases the object that the
next two lines mutate, the persisted snapshot stores the
post-mutation (locked) overwrite, not the prior one, and
`remove_lockdown` therefore writes the locked overwrite back: after
apply-then-restore, channel 1's overwrite has `send_messages = False`
instead of its original `send_messages = True`. -/
theorem lockdown_snapshot_aliasing_bug :
    ((apply_lockdown cfgEx wEx gEx ("full") ("raid") none 1000
        (fun _ => true)).1.lockdowns 7
      = [{ channels :=
            [(1, { sendMessages := some false, addReactions := some false,
                   other := 42 })],
           timestamp := 1000, level := "full", reason := "raid",
           unlockAt := 0 }])
    ∧ wEx.overwrites 1 = baseOw
    ∧ baseOw.sendMessages = some true
    ∧ ((remove_lockdown
          (apply_lockdown cfgEx wEx gEx ("full") ("raid") none 1000
            (fun _ => true)).1 gEx (fun _ => true)).1.overwrites 1
        ≠ wEx.overwrites 1)
    ∧ ((remove_lockdown
          (apply_lockdown cfgEx wEx gEx ("full") ("raid") none 1000
            (fun _ => true)).1 gEx (fun _ => true)).1.overwrites
          1).sendMessages = some false := by
  decide

/-- C2 fails on the code at this input: with channels 1 and 2 both in
scope and the write to channel 1 raising, `apply_lockdown` returns the
error string (not a per-channel failure count), channel 2 is never
processed, and no snapshot is persisted. -/
theorem apply_failure_aborts_cex :
    (apply_lockdown cfgEx wEx gEx2 ("full") ("raid") none 1000
        (fun c => c != 1)).2 = ApplyResult.err
    ∧ (apply_lockdown cfgEx wEx gEx2 ("full") ("raid") none 1000
        (fun c => c != 1)).1.overwrites 2 = wEx.overwrites 2
    ∧ (apply_lockdown cfgEx wEx gEx2 ("full") ("raid") none 1000
        (fun c => c != 1)).1.lockdowns 7 = [] := by
  decide

/-- C2 amended: a failing per-channel permission write aborts the
sweep — `apply_lockdown` returns the error result instead of an
affected list, and no snapshot is persisted (the lockdown store is
unchanged for every guild). -/
theorem apply_failure_aborts_sweep (cfg : Config) (w : World)
    (g : Guild) (level reason : String) (duration : Option Nat)
    (now : Nat) (writeOk : Nat → Bool)
    (h : ∃ c ∈ g.channels, skipChannel cfg c = false ∧ writeOk c = false) :
    (apply_lockdown cfg w g level reason duration now writeOk).2
        = ApplyResult.err
    ∧ (apply_lockdown cfg w g level reason duration now
        writeOk).1.lockdowns = w.lockdowns := by
  have hflag := applyLoop_flag_false cfg writeOk g.channels w.overwrites h
  unfold apply_lockdown
  simp [hflag]

/-- Witness for the amended C2 at the concrete failing scenario. -/
theorem apply_failure_aborts_sweep_witness :
    (apply_lockdown cfgEx wEx gEx2 ("full") ("raid") none 1000
        (fun c => c != 1)).2 = ApplyResult.err
    ∧ (apply_lockdown cfgEx wEx gEx2 ("full") ("raid") none 1000
        (fun c => c != 1)).1.lockdowns = wEx.lockdowns :=
  apply_failure_aborts_sweep cfgEx wEx gEx2 ("full") ("raid") none 1000
    (fun c => c != 1) ⟨1, by decide, by decide, by decide⟩

/-- C8: once `remove_lockdown` has processed a non-empty snapshot list
it clears the guild's list unconditionally (whatever the per-channel
failure oracle did) and reports a restored/failed summary; and for any
two consecutive `remove_lockdown` calls with no intervening apply, the
second always reports the no-snapshot result. -/
theorem restore_clears_unconditionally (w : World) (g : Guild)
    (ok1 ok2 : Nat → Bool) :
    (w.lockdowns g.id ≠ [] →
      (remove_lockdown w g ok1).1.lockdowns g.id = []
      ∧ ∃ r f, (remove_lockdown w g ok1).2 = RestoreResult.summary r f)
    ∧ (remove_lockdown (remove_lockdown w g ok1).1 g ok2).2
        = RestoreResult.noSnapshot := by
  by_cases h : w.lockdowns g.id = []
  · refine ⟨fun hne => absurd h hne, ?_⟩
    unfold remove_lockdown
    simp [h]
  · have hne : ((w.lockdowns g.id).isEmpty = true) = False := by
      simpa [List.isEmpty_iff] using h
    refine ⟨fun _ => ?_, ?_⟩
    · unfold remove_lockdown
      simp [hne]
    · unfold remove_lockdown
      simp [hne]

/-- A world holding one stored snapshot for guild 7. -/
def wSnapEx : World :=
  { overwrites := fun _ => baseOw,
    lockdowns := fun gid =>
      if gid = 7 then
        [{ channels := [(1, baseOw)], timestamp := 0, level := "full",
           reason := "r", unlockAt := 0 }]
      else [] }

/-- Witness for C8 at a concrete world with one stored snapshot. -/
theorem restore_clears_unconditionally_witness :
    ((remove_lockdown wSnapEx gEx (fun _ => true)).1.lockdowns 7 = []
      ∧ ∃ r f, (remove_lockdown wSnapEx gEx (fun _ => true)).2
          = RestoreResult.summary r f)
    ∧ (remove_lockdown (remove_lockdown wSnapEx gEx (fun _ => true)).1
        gEx (fun _ => true)).2 = RestoreResult.noSnapshot :=
  ⟨(restore_clears_unconditionally wSnapEx gEx (fun _ => true)
      (fun _ => true)).1 (by decide),
    (restore_clears_unconditionally wSnapEx gEx (fun _ => true)
      (fun _ => true)).2⟩

/-- C9: when every in-scope write succeeds, `apply_lockdown` appends
one snapshot whose captured channels are exactly the guild's channels
that are neither staff nor general (in iteration order), writes the
restrictive overwrite (send-messages and add-reactions denied, all
other fields preserved) to exactly those channels; and — whatever the
write oracle — staff channels and the general channel are never
modified. -/
theorem lockdown_scope_iff (cfg : Config) (w : World) (g : Guild)
    (level reason : String) (duration : Option Nat) (now : Nat)
    (writeOk : Nat → Bool)
    (h : ∀ c ∈ g.channels, skipChannel cfg c = false → writeOk c = true) :
    (∃ snap,
      (apply_lockdown cfg w g level reason duration now
          writeOk).1.lockdowns g.id = w.lockdowns g.id ++ [snap]
      ∧ snap.channels.map Prod.fst
          = g.channels.filter (fun c => !skipChannel cfg c))
    ∧ (∀ c ∈ g.channels, skipChannel cfg c = false →
        (apply_lockdown cfg w g level reason duration now
            writeOk).1.overwrites c = lockOw (w.overwrites c))
    ∧ (∀ (writeOk2 : Nat → Bool) (c : Nat), skipChannel cfg c = true →
        (apply_lockdown cfg w g level reason duration now
            writeOk2).1.overwrites c = w.overwrites c) := by
  obtain ⟨hflag, hmap⟩ :=
    applyLoop_entries cfg writeOk g.channels w.overwrites h
  refine ⟨?_, ?_, ?_⟩
  · refine ⟨⟨(applyLoop cfg writeOk w.overwrites g.channels).2.1,
      now, level, reason,
      match duration with
      | some d => if d = 0 then 0 else now + d
      | none => 0⟩, ?_, hmap⟩
    unfold apply_lockdown
    simp [hflag]
  · intro c hc hskip
    rw [apply_lockdown_overwrites,
      applyLoop_locks cfg writeOk g.channels w.overwrites h c hskip,
      if_pos hc]
  · intro writeOk2 c hskip
    rw [apply_lockdown_overwrites]
    exact applyLoop_untouched cfg writeOk2 g.channels w.overwrites c hskip

/-- Witness for C9: the concrete guild with channels 1, 5 (staff),
99 (general), 2 under an always-succeeding backend. -/
theorem lockdown_scope_iff_witness :
    (∃ snap,
      (apply_lockdown cfgEx wEx ⟨7, [1, 5, 99, 2]⟩ ("full") ("raid")
          none 1000 (fun _ => true)).1.lockdowns 7
        = wEx.lockdowns 7 ++ [snap]
      ∧ snap.channels.map Prod.fst
          = [1, 5, 99, 2].filter (fun c => !skipChannel cfgEx c))
    ∧ (∀ c ∈ [1, 5, 99, 2], skipChannel cfgEx c = false →
        (apply_lockdown cfgEx wEx ⟨7, [1, 5, 99, 2]⟩ ("full") ("raid")
            none 1000 (fun _ => true)).1.overwrites c
          = lockOw (wEx.overwrites c))
    ∧ (∀ (writeOk2 : Nat → Bool) (c : Nat), skipChannel cfgEx c = true →
        (apply_lockdown cfgEx wEx ⟨7, [1, 5, 99, 2]⟩ ("full") ("raid")
            none 1000 writeOk2).1.overwrites c = wEx.overwrites c) :=
  lockdown_scope_iff cfgEx wEx ⟨7, [1, 5, 99, 2]⟩ ("full") ("raid")
    none 1000 (fun _ => true) (by decide)
